import Mathlib

/-!
# fakefs: a synthetic 9P file server

A shallow embedding of `src/fakefs.c`.  The process-wide variables
(`rotbuf`, `satbuf`, `satstamp`, `satlen`, and the file behind `logfd`)
become one explicit `State`; whatever a handler obtains from outside the
process during one invocation (clock readings, user name, random draws, the
answers of webfs under `/mnt/web`) is collected in `Env`.  Bytes are natural
numbers below 256, C strings are byte lists read up to the first NUL.
-/

namespace Fakefs

/-! ## Constants -/

/-- Size of the rot13 buffer: `RotBufSize = 10 * 1024`. -/
def RotBufSize : Nat := 10 * 1024

/-- Size of the sat.jpg buffer: `SatBufSize = 300 * 1024`. -/
def SatBufSize : Nat := 300 * 1024

/-! ## Requests, responses, global state, environment -/

/-- The part of a 9P request the handlers look at: `ifcall.offset`,
`ifcall.count` and, for a write, `ifcall.data`. -/
structure Req where
  offset : Nat
  count : Nat
  data : List Nat
deriving DecidableEq, Repr

/-- A read request (`Tread`) for `count` bytes at `offset`. -/
def mkRead (offset count : Nat) : Req := ⟨offset, count, []⟩

/-- A write request (`Twrite`): 9P sends `count` together with exactly that
many bytes of data.  The transport keeps `count` below the message size, far
below `2^31`, so the assignment to the `int n` in `rwfunc` keeps its value. -/
def mkWrite (offset : Nat) (data : List Nat) : Req := ⟨offset, data.length, data⟩

/-- The reply under construction: `ofcall.count` and `ofcall.data`. -/
structure Ofcall where
  count : Nat
  data : List Nat
deriving DecidableEq, Repr

/-- The global variables of the server.  `log` is the sequence of byte
strings written to `logfd`, one element per `fprint`. -/
structure State where
  rotbuf : List Nat
  satbuf : List Nat
  satstamp : Nat
  satlen : Nat
  log : List (List Nat)
deriving DecidableEq, Repr

/-- One operation on the webfs control files under `/mnt/web`. -/
inductive WebCall where
  | accessClone
  | openClone
  | readClone
  | accessCtl (cnum : Nat)
  | openCtl (cnum : Nat)
  | writeCtl (cnum : Nat)
  | openBody (cnum : Nat)
  | readBody (cnum : Nat)
deriving DecidableEq, Repr

/-- What the outside world answers during one handler invocation.

* `time k` is the value of the `k`-th call of `time(0)` (counted from 0);
* `user` is the text of `getuser()`, `ctime` the library formatting of a
  time stamp, both as bytes; a Plan 9 user name is short and has no `%`,
  so the `sprint` into `tell[128]` fits and `fprint(logfd, tell)` writes
  `tell` as it is;
* `rand i` is the result of the `i`-th call of `ntruerand(4)`;
* `cloneAccess`: `access("/mnt/web/clone", AREAD)` succeeded;
* `cloneRead`: `none` when opening or reading clone gave `n < 1`, otherwise
  the session number `atoi` finds in what was read;
* `ctlAccess k`: `access("/mnt/web/k/ctl", AWRITE)` succeeded;
* `ctlWrite`: the return value of the `write` of the url to ctl (`-1` when
  the open or the write failed);
* `body`: what the successive `read(bodyfd, satbuf+n, 1024)` calls deliver,
  one list per call that returned a positive count;
* `bodyLast`: the return value of the read that follows them (`0` at end of
  data, `-1` on an error, also when the body could not be opened). -/
structure Env where
  time : Nat → Nat
  user : List Nat
  ctime : Nat → List Nat
  rand : Nat → Nat
  cloneAccess : Bool
  cloneRead : Option Nat
  ctlAccess : Nat → Bool
  ctlWrite : Int
  body : List (List Nat)
  bodyLast : Int

/-- What a handler leaves behind: the `char*` it returns (`none` is `nil`),
the reply fields it filled in, the new global state, and the webfs
operations it performed. -/
structure Result where
  err : Option String
  ofcall : Ofcall
  st : State
  web : List WebCall
deriving DecidableEq, Repr

/-- The state after `fsstart`: both buffers come zeroed from `emalloc9p`,
`satstamp` and `satlen` are zero-initialised globals. -/
def initState (log : List (List Nat)) : State :=
  { rotbuf := List.replicate RotBufSize 0
    satbuf := List.replicate SatBufSize 0
    satstamp := 0
    satlen := 0
    log := log }

/-! ## Library routines used by the handlers -/

/-- The ASCII bytes of a string literal. -/
def bytesOf (s : String) : List Nat := s.toList.map Char.toNat

/-- The decimal digits `%d` and `%ld` print for a non-negative number. -/
def fmtDec (n : Nat) : List Nat := (Nat.toDigits 10 n).map Char.toNat

/-- Library `snprint(buf, cap, fmt, ...)`: of the formatted `text` at most
`cap - 1` bytes are stored, followed by a NUL. -/
def snprint (cap : Nat) (text : List Nat) : List Nat := text.take (cap - 1)

/-- Library `seprint(p, buf + cap, fmt, ...)` where `p` points at the end of
the text `sofar` already in `buf`: the formatted `text` is appended as far as
it fits before the last byte of the buffer, which holds the NUL. -/
def seprint (sofar : List Nat) (cap : Nat) (text : List Nat) : List Nat :=
  sofar ++ text.take (cap - 1 - sofar.length)

/-- C `strlen`: the number of bytes before the first NUL. -/
def strlen (s : List Nat) : Nat := (s.takeWhile (fun b => b != 0)).length

/-- C `memset(buf, 0, n)` on a buffer of exactly `n` bytes. -/
def memsetZero (n : Nat) : List Nat := List.replicate n 0

/-- C `memmove(dst + pos, src, src.length)`: the bytes of `src` replace those
of `dst` from index `pos` on.  Writing past the end of `dst` lengthens the
list: the bytes land in the memory behind the buffer. -/
def memmoveAt (dst : List Nat) (pos : Nat) (src : List Nat) : List Nat :=
  dst.take pos ++ src ++ dst.drop (pos + src.length)

/-- Routine `readbuf(r, s, n)` of lib9p: answers the read with the window
`[offset, offset+count)` of the `n` bytes at `s`. -/
def readbuf (r : Req) (s : List Nat) (n : Nat) : Ofcall :=
  if r.offset ≥ n then ⟨0, []⟩
  else
    let count := if r.offset + r.count > n then n - r.offset else r.count
    ⟨count, (s.drop r.offset).take count⟩

/-- Routine `readstr(r, s)` of lib9p: `readbuf(r, s, strlen(s))`. -/
def readstr (r : Req) (s : List Nat) : Ofcall :=
  readbuf r s (strlen s)

/-! ## rot13 -/

/-- The value of a byte seen through Plan 9's signed `char`. -/
def schar (c : Nat) : Int := if c < 128 then (c : Int) else (c : Int) - 256

/-- The body of the loop in `rwfunc`, for one byte `rotbuf[i]`:
`'A' = 65`, `'M' = 77`, `'N' = 78`, `'Z' = 90`, `'a' = 97`, `'m' = 109`,
`'n' = 110`, `'z' = 122`. -/
def rot13byte (c : Nat) : Nat :=
  if (schar c ≥ 65 ∧ schar c < 78) ∨ (schar c ≥ 97 ∧ schar c < 110) then
    (c + 13) % 256
  else if (schar c > 77 ∧ schar c ≤ 90) ∨ (schar c > 109 ∧ schar c ≤ 122) then
    (c + 256 - 13) % 256
  else c

/-- The loop `for(i = 0; i < n; i++)` of `rwfunc`; `k` counts the iterations
still to run, `i` is the loop variable. -/
def rotLoop : Nat → Nat → List Nat → List Nat
  | 0, _, buf => buf
  | k + 1, i, buf => rotLoop k (i + 1) (buf.set i (rot13byte (buf.getD i 0)))

/-- Handler `rwfunc`: write to rot13. -/
def rwfunc (r : Req) (_env : Env) (st : State) : Result :=
  let count := r.count
  let n := if count > RotBufSize - 1 then RotBufSize - 1 else count
  let buf0 := memsetZero RotBufSize
  let buf1 := memmoveAt buf0 0 (r.data.take n)
  let buf2 := rotLoop n 0 buf1
  { err := none, ofcall := ⟨count, []⟩, st := { st with rotbuf := buf2 }, web := [] }

/-- Handler `rrfunc`: read from rot13. -/
def rrfunc (r : Req) (_env : Env) (st : State) : Result :=
  { err := none, ofcall := readstr r st.rotbuf, st := st, web := [] }

/-! ## The generators: tyme, backtalk, i-ching -/

/-- Handler `timefunc`: read tyme. -/
def timefunc (r : Req) (env : Env) (st : State) : Result :=
  let buf := snprint 128 (bytesOf "And it came to pass, in \n" ++ fmtDec (env.time 0)
    ++ bytesOf " seconds of\nthe reign of Unix...\n")
  { err := none, ofcall := readstr r buf, st := st, web := [] }

/-- Handler `tbfunc`: read backtalk. -/
def tbfunc (r : Req) (env : Env) (st : State) : Result :=
  let buf := snprint 128 (bytesOf "I'm sorry " ++ env.user
    ++ bytesOf ", I'm afraid I can't do that.\n")
  { err := none, ofcall := readstr r buf, st := st, web := [] }

/-- The line glyph `even` of `icfunc`. -/
def even : List Nat := bytesOf "___   ___"

/-- The line glyph `odd` of `icfunc`. -/
def odd : List Nat := bytesOf "_________"

/-- The loop `for (i = 0; i < 6; i++)` of `icfunc`; `k` counts the iterations
still to run, `buf` is the text before `p`.  Each pass formats
`"%s %d\n"` with the glyph and `d`. -/
def icLoop (env : Env) : Nat → Nat → List Nat → List Nat
  | 0, _, buf => buf
  | k + 1, i, buf =>
    let d := 6 + env.rand i
    if d % 2 ≠ 0 then
      icLoop env k (i + 1) (seprint buf 128 (odd ++ bytesOf " " ++ fmtDec d ++ bytesOf "\n"))
    else
      icLoop env k (i + 1) (seprint buf 128 (even ++ bytesOf " " ++ fmtDec d ++ bytesOf "\n"))

/-- The scratch buffer `buf` of `icfunc` when the loop is done. -/
def icbuf (env : Env) : List Nat := icLoop env 6 0 []

/-- Handler `icfunc`: read i-ching. -/
def icfunc (r : Req) (env : Env) (st : State) : Result :=
  { err := none, ofcall := readstr r (icbuf env), st := st, web := [] }

/-! ## honeypot -/

/-- Handler `rhpot`: read honeypot. -/
def rhpot (r : Req) (env : Env) (st : State) : Result :=
  let tell := env.ctime (env.time 0) ++ bytesOf " - " ++ env.user
    ++ bytesOf " - read the honeypot\n"
  { err := none
    ofcall := readstr r (bytesOf "Juicy corporate secrets\n")
    st := { st with log := st.log ++ [tell] }
    web := [] }

/-- Handler `whpot`: write honeypot. -/
def whpot (r : Req) (env : Env) (st : State) : Result :=
  let tell := env.ctime (env.time 0) ++ bytesOf " - " ++ env.user
    ++ bytesOf " - write the honeypot\n"
  { err := some "Authorities Have Been Notified"
    ofcall := ⟨r.count, []⟩
    st := { st with log := st.log ++ [tell] }
    web := [] }

/-! ## sat.jpg -/

/-- The test `(time(0) - satstamp) < 20` of `rsat`: `satstamp` is a `ulong`,
so the difference is taken modulo `2^32` and compared unsigned. -/
def satFresh (now satstamp : Nat) : Bool :=
  decide ((now % 2 ^ 32 + 2 ^ 32 - satstamp % 2 ^ 32) % 2 ^ 32 < 20)

/-- The loop `while((i = read(bodyfd, satbuf+n, 1024)) > 0) n = n + i;` of
`rsat`.  The first argument lists what the reads still to come deliver; when
it is used up the next read returns `0` or `-1` and the loop ends either
way.  The result is the buffer and `n`. -/
def bodyLoop : List (List Nat) → List Nat → Nat → List Nat × Nat
  | [], satbuf, n => (satbuf, n)
  | c :: rest, satbuf, n =>
    if c.length > 0 then bodyLoop rest (memmoveAt satbuf n c) (n + c.length)
    else (satbuf, n)

/-- The number of `read` calls the loop of `rsat` makes on the body. -/
def bodyReads (body : List (List Nat)) : Nat :=
  (body.takeWhile (fun c => decide (c.length > 0))).length + 1

/-- Handler `rsat`: read sat.jpg. -/
def rsat (r : Req) (env : Env) (st : State) : Result :=
  if satFresh (env.time 0) st.satstamp then
    { err := none
      ofcall := readbuf r st.satbuf st.satlen
      st := { st with log := st.log ++ [env.ctime (env.time 1) ++ bytesOf " - sat old data\n"] }
      web := [] }
  else if !env.cloneAccess then
    { err := some "run webfs first", ofcall := ⟨0, []⟩, st := st,
      web := [WebCall.accessClone] }
  else
    match env.cloneRead with
    | none =>
      { err := some "clone read failed", ofcall := ⟨0, []⟩, st := st,
        web := [WebCall.accessClone, WebCall.openClone, WebCall.readClone] }
    | some cnum =>
      if !env.ctlAccess cnum then
        { err := some "can't find ctl", ofcall := ⟨0, []⟩, st := st,
          web := [WebCall.accessClone, WebCall.openClone, WebCall.readClone,
            WebCall.accessCtl cnum] }
      else
        let _n := env.ctlWrite
        let satbuf0 := memsetZero SatBufSize
        let fetched := bodyLoop env.body satbuf0 0
        let n := fetched.2
        { err := none
          ofcall := readbuf r fetched.1 n
          st :=
            { st with
              satbuf := fetched.1
              satstamp := env.time 1 % 2 ^ 32
              satlen := n
              log := st.log ++ [env.ctime (env.time 2) ++ bytesOf " - sat read done with "
                ++ fmtDec n ++ bytesOf "\n"] }
          web := [WebCall.accessClone, WebCall.openClone, WebCall.readClone,
            WebCall.accessCtl cnum, WebCall.openCtl cnum, WebCall.writeCtl cnum,
            WebCall.openBody cnum] ++ List.replicate (bodyReads env.body) (WebCall.readBody cnum) }

/-! ## The file table and the dispatchers -/

/-- The handler functions a `Fakefile` can point to. -/
inductive Handler where
  | timefunc | tbfunc | icfunc | rrfunc | rwfunc | rhpot | whpot | rsat
deriving DecidableEq, Repr

/-- Calling through a function pointer. -/
def Handler.run : Handler → Req → Env → State → Result
  | .timefunc => Fakefs.timefunc
  | .tbfunc => Fakefs.tbfunc
  | .icfunc => Fakefs.icfunc
  | .rrfunc => Fakefs.rrfunc
  | .rwfunc => Fakefs.rwfunc
  | .rhpot => Fakefs.rhpot
  | .whpot => Fakefs.whpot
  | .rsat => Fakefs.rsat

/-- The record `struct Fakefile`; a `nil` function pointer is `none`. -/
structure Fakefile where
  name : String
  fakeread : Option Handler
  fakewrite : Option Handler
  mode : Nat
deriving DecidableEq, Repr

/-- The reply `respond` sends: an error message, or the filled-in reply. -/
inductive Response where
  | rerror (ename : String)
  | rok (ofcall : Ofcall)
deriving DecidableEq, Repr

/-- How a dispatcher call ends: a reply was sent and the globals are as
given, or the process faulted on a call through a `nil` function pointer. -/
inductive Outcome where
  | responded (resp : Response) (st : State) (web : List WebCall)
  | fault
deriving DecidableEq, Repr

/-- Library `respond(r, error)`: an error reply when `error` is not `nil`. -/
def respond (res : Result) : Outcome :=
  match res.err with
  | some e => Outcome.responded (Response.rerror e) res.st res.web
  | none => Outcome.responded (Response.rok res.ofcall) res.st res.web

/-- Dispatcher `fsread`: `respond(r, f->fakeread(r))`, after setting
`ofcall.count = 0`, which is the count a handler leaves when it sets none. -/
def fsread (f : Fakefile) (r : Req) (env : Env) (st : State) : Outcome :=
  match f.fakeread with
  | some h => respond (h.run r env st)
  | none => Outcome.fault

/-- Dispatcher `fswrite`: `respond(r, f->fakewrite(r))`. -/
def fswrite (f : Fakefile) (r : Req) (env : Env) (st : State) : Outcome :=
  match f.fakewrite with
  | some h => respond (h.run r env st)
  | none => Outcome.fault

/-! ## The way of a request through lib9p to the dispatchers

The server hands its tree to lib9p (`postmountsrv`) and sets no open
function of its own, so opening a file is answered by the library.  The
definitions of this section follow the library, which is not part of this
repository, as far as the mode given to `createfile` matters. -/

/-- An ASCII letter `A`-`Z` or `a`-`z`. -/
def isLetter (c : Nat) : Prop := (65 ≤ c ∧ c ≤ 90) ∨ (97 ≤ c ∧ c ≤ 122)

instance (c : Nat) : Decidable (isLetter c) := by
  unfold isLetter; infer_instance

/-- The reference Caesar-13 map of the specification: a letter moves 13
places forward inside its own alphabet, wrapping modulo 26; any other byte
stays. -/
def caesar13Ref (c : Nat) : Nat :=
  if 65 ≤ c ∧ c ≤ 90 then 65 + (c - 65 + 13) % 26
  else if 97 ≤ c ∧ c ≤ 122 then 97 + (c - 97 + 13) % 26
  else c

/-- The bytes a client gets back when it writes `input` to rot13 and then
reads rot13 from offset 0 asking for `cnt` bytes, together with the state
left behind. -/
def writeThenRead (input : List Nat) (cnt : Nat) (env : Env) (st : State) :
    List Nat × State :=
  let s1 := (rwfunc (mkWrite 0 input) env st).st
  let res := rrfunc (mkRead 0 cnt) env s1
  (res.ofcall.data, res.st)

/-- Write, read, write the bytes just read back, read again. -/
def rot13RoundTrip (input : List Nat) (cnt : Nat) (env : Env) (st : State) : List Nat :=
  let first := writeThenRead input cnt env st
  (writeThenRead first.1 cnt env first.2).1

/-- The first `m` bytes of the pattern `p` repeated over and over. -/
def repeatBytes (p : List Nat) (m : Nat) : List Nat :=
  (List.range m).map (fun i => p.getD (i % p.length) 0)

/-- An environment in which webfs is not running; the clock stands at 1000. -/
def quietEnv : Env :=
  { time := fun _ => 1000
    user := bytesOf "glenda"
    ctime := fun t => fmtDec t
    rand := fun _ => 0
    cloneAccess := false
    cloneRead := none
    ctlAccess := fun _ => false
    ctlWrite := -1
    body := []
    bodyLast := -1 }

/-- One line of a hexagram as the specification describes it: the glyph
chosen by the parity of `v`, a blank, `v` in decimal, a newline. -/
def hexagramLine (v : Nat) : List Nat :=
  (if v % 2 = 1 then bytesOf "_________" else bytesOf "___   ___")
    ++ bytesOf " " ++ fmtDec v ++ bytesOf "\n"

/-- An environment whose draws are 0, 1, 2, 3, 0, 1, ... -/
def drawEnv : Env := { quietEnv with rand := fun i => i % 4 }

/-- An environment in which webfs runs and hands out session 0, but the
write of the url to ctl fails and the body cannot be read. -/
def failingFetchEnv : Env :=
  { quietEnv with
    cloneAccess := true
    cloneRead := some 0
    ctlAccess := fun _ => true
    ctlWrite := -1
    body := []
    bodyLast := -1 }

/-- An environment in which webfs delivers a body of `300 * 1024 + 1` bytes
`0xFF`: 300 reads of 1024 bytes, one read of one byte, then end of data. -/
def bigBodyEnv : Env :=
  { quietEnv with
    cloneAccess := true
    cloneRead := some 0
    ctlAccess := fun _ => true
    ctlWrite := 78
    body := List.replicate 300 (List.replicate 1024 255) ++ [[255]]
    bodyLast := 0 }

/-- The entry of `files[]` for honeypot. -/
def honeypotFile : Fakefile := ⟨"honeypot", some .rhpot, some .whpot, 0o666⟩

/-- The entry of `files[]` for sat.jpg. -/
def satFile : Fakefile := ⟨"sat.jpg", some .rsat, none, 0o444⟩

/-- An environment in which webfs delivers a body of three bytes in one
read; the clock stands at 1000. -/
def smallBodyEnv : Env :=
  { quietEnv with
    cloneAccess := true
    cloneRead := some 0
    ctlAccess := fun _ => true
    ctlWrite := 78
    body := [[255, 216, 255]]
    bodyLast := 0 }

/-! ## Auxiliary lemmas -/

theorem RotBufSize_eq : RotBufSize = 10240 := rfl

theorem SatBufSize_eq : SatBufSize = 307200 := rfl

theorem rotLoop_append (mid pre post : List Nat) :
    rotLoop mid.length pre.length (pre ++ mid ++ post) = pre ++ mid.map rot13byte ++ post := by
  induction mid generalizing pre with
  | nil => simp [rotLoop]
  | cons c mid ih =>
    have h := ih (pre ++ [rot13byte c])
    simp only [List.length_append, List.length_singleton, List.append_assoc,
      List.singleton_append, List.cons_append, List.nil_append] at h
    simp only [List.length_cons, rotLoop, List.append_assoc, List.cons_append, List.map_cons]
    have hget : (pre ++ c :: (mid ++ post)).getD pre.length 0 = c := by
      rw [List.getD_eq_getElem?_getD, List.getElem?_append_right (Nat.le_refl _)]
      simp
    have hset : (pre ++ c :: (mid ++ post)).set pre.length (rot13byte c)
        = pre ++ rot13byte c :: (mid ++ post) := by
      simp
    rw [hget, hset, h]

theorem rotLoop_memmove (data : List Nat) (n : Nat) (hlen : n ≤ data.length) :
    rotLoop n 0 (memmoveAt (memsetZero RotBufSize) 0 (data.take n))
      = (data.take n).map rot13byte ++ List.replicate (RotBufSize - n) 0 := by
  have h := rotLoop_append (data.take n) [] ((memsetZero RotBufSize).drop n)
  simp only [List.length_take, Nat.min_eq_left hlen, List.length_nil, List.nil_append] at h
  simp only [memmoveAt, List.take_zero, List.nil_append, List.length_take,
    Nat.min_eq_left hlen, Nat.zero_add]
  rw [h]
  simp [memsetZero]

theorem rwfunc_rotbuf (off : Nat) (data : List Nat) (env : Env) (st : State) :
    (rwfunc (mkWrite off data) env st).st.rotbuf
      = (data.take (RotBufSize - 1)).map rot13byte
          ++ List.replicate (RotBufSize - min data.length (RotBufSize - 1)) 0 := by
  simp only [rwfunc, mkWrite]
  by_cases h : data.length > RotBufSize - 1
  · rw [if_pos h, rotLoop_memmove data _ (Nat.le_of_lt h), Nat.min_eq_right (Nat.le_of_lt h)]
  · rw [if_neg h]
    have hle : data.length ≤ RotBufSize - 1 := Nat.le_of_not_gt h
    rw [rotLoop_memmove data _ (Nat.le_refl _), Nat.min_eq_left hle,
      List.take_of_length_le (Nat.le_refl _), List.take_of_length_le hle]

theorem takeWhile_nonzero_append (xs ys : List Nat) (h : ∀ x ∈ xs, x ≠ 0) :
    (xs ++ 0 :: ys).takeWhile (fun b => b != 0) = xs := by
  induction xs with
  | nil => simp
  | cons x xs ih =>
    have hx : x ≠ 0 := h x (List.mem_cons_self _ _)
    have hxs : ∀ y ∈ xs, y ≠ 0 := fun y hy => h y (List.mem_cons_of_mem _ hy)
    simp [List.takeWhile_cons, hx, ih hxs]

theorem strlen_append_zeros (xs : List Nat) (k : Nat) (hk : 0 < k) (h : ∀ x ∈ xs, x ≠ 0) :
    strlen (xs ++ List.replicate k 0) = xs.length := by
  obtain ⟨j, rfl⟩ : ∃ j, k = j + 1 := ⟨k - 1, by omega⟩
  rw [List.replicate_succ, strlen, takeWhile_nonzero_append xs _ h]

theorem readstr_append_zeros (xs : List Nat) (k cnt : Nat) (hk : 0 < k)
    (h : ∀ x ∈ xs, x ≠ 0) :
    (readstr (mkRead 0 cnt) (xs ++ List.replicate k 0)).data = xs.take cnt := by
  rw [readstr, strlen_append_zeros xs k hk h]
  simp only [readbuf, mkRead]
  by_cases h0 : 0 ≥ xs.length
  · have : xs = [] := List.length_eq_zero.mp (by omega)
    subst this
    simp
  · rw [if_neg h0]
    simp only [List.drop_zero, Nat.zero_add]
    by_cases hc : cnt > xs.length
    · rw [if_pos hc, List.take_append_of_le_length (by omega)]
      simp [List.take_of_length_le (Nat.le_of_lt hc)]
    · rw [if_neg hc, List.take_append_of_le_length (by omega)]

theorem rot13byte_eq_ref (c : Nat) (hc : c < 256) : rot13byte c = caesar13Ref c := by
  unfold rot13byte caesar13Ref schar
  interval_cases c <;> simp

theorem caesar13Ref_facts (c : Nat) (hc : c < 256) :
    caesar13Ref c < 256 ∧ (c ≠ 0 → caesar13Ref c ≠ 0)
      ∧ (isLetter c → isLetter (caesar13Ref c) ∧ caesar13Ref (caesar13Ref c) = c)
      ∧ (¬ isLetter c → caesar13Ref c = c) := by
  unfold isLetter
  refine ⟨?_, ?_, ?_, ?_⟩
  · unfold caesar13Ref; split_ifs <;> omega
  · unfold caesar13Ref; split_ifs <;> omega
  · intro h
    refine ⟨?_, ?_⟩
    · unfold caesar13Ref; split_ifs <;> omega
    · by_cases hu : 65 ≤ c ∧ c ≤ 90
      · have h1 : caesar13Ref c = 65 + (c - 65 + 13) % 26 := by
          unfold caesar13Ref; rw [if_pos hu]
        have h2 : 65 ≤ caesar13Ref c ∧ caesar13Ref c ≤ 90 := by omega
        have h3 : caesar13Ref (caesar13Ref c)
            = 65 + (caesar13Ref c - 65 + 13) % 26 := by
          generalize caesar13Ref c = d at h2 ⊢
          unfold caesar13Ref; rw [if_pos h2]
        omega
      · have hl : 97 ≤ c ∧ c ≤ 122 := by omega
        have hn : ¬ (65 ≤ c ∧ c ≤ 90) := hu
        have h1 : caesar13Ref c = 97 + (c - 97 + 13) % 26 := by
          unfold caesar13Ref; rw [if_neg hn, if_pos hl]
        have h2 : 97 ≤ caesar13Ref c ∧ caesar13Ref c ≤ 122 := by omega
        have h2n : ¬ (65 ≤ caesar13Ref c ∧ caesar13Ref c ≤ 90) := by omega
        have h3 : caesar13Ref (caesar13Ref c)
            = 97 + (caesar13Ref c - 97 + 13) % 26 := by
          generalize caesar13Ref c = d at h2 h2n ⊢
          unfold caesar13Ref; rw [if_neg h2n, if_pos h2]
        omega
  · intro h
    unfold caesar13Ref; split_ifs <;> omega

theorem rot13byte_facts (c : Nat) (hc : c < 256) :
    rot13byte c = caesar13Ref c ∧ rot13byte c < 256 ∧ (c ≠ 0 → rot13byte c ≠ 0)
      ∧ (isLetter c → isLetter (rot13byte c) ∧ rot13byte (rot13byte c) = c)
      ∧ (¬ isLetter c → rot13byte c = c) := by
  have hf := caesar13Ref_facts c hc
  have he := rot13byte_eq_ref c hc
  rw [he]
  refine ⟨rfl, hf.1, hf.2.1, ?_, hf.2.2.2⟩
  intro hl
  refine ⟨(hf.2.2.1 hl).1, ?_⟩
  rw [rot13byte_eq_ref _ hf.1]
  exact (hf.2.2.1 hl).2

theorem isLetter_lt (c : Nat) (h : isLetter c) : c < 256 ∧ c ≠ 0 := by
  unfold isLetter at h
  omega

theorem read_after_write (off : Nat) (data : List Nat) (cnt : Nat) (env1 env2 : Env)
    (st : State) (h : ∀ b ∈ data, b ≠ 0 ∧ b < 256) :
    (rrfunc (mkRead 0 cnt) env2 (rwfunc (mkWrite off data) env1 st).st).ofcall.data
      = ((data.take (RotBufSize - 1)).map rot13byte).take cnt := by
  simp only [rrfunc]
  rw [rwfunc_rotbuf]
  apply readstr_append_zeros
  · have := Nat.min_le_right data.length (RotBufSize - 1)
    rw [RotBufSize_eq] at this ⊢
    omega
  · intro x hx
    obtain ⟨b, hb, rfl⟩ := List.mem_map.mp hx
    have hb2 := h b (List.mem_of_mem_take hb)
    exact (rot13byte_facts b hb2.2).2.2.1 hb2.1

theorem hello_bytes :
    bytesOf "Hello, World!" = [72, 101, 108, 108, 111, 44, 32, 87, 111, 114, 108, 100, 33] := by
  rfl

theorem uryyb_bytes :
    bytesOf "Uryyb, Jbeyq!" = [85, 114, 121, 121, 98, 44, 32, 74, 98, 101, 121, 113, 33] := by
  rfl

theorem hello_pointwise (j : Nat) (hj : j < 13) :
    (bytesOf "Hello, World!").getD j 0 ≠ 0 ∧ (bytesOf "Hello, World!").getD j 0 < 256
      ∧ rot13byte ((bytesOf "Hello, World!").getD j 0) = (bytesOf "Uryyb, Jbeyq!").getD j 0 := by
  rw [hello_bytes, uryyb_bytes]
  unfold rot13byte schar
  interval_cases j <;> simp

theorem repeatBytes_take (p : List Nat) (k m : Nat) :
    (repeatBytes p m).take k = repeatBytes p (min k m) := by
  simp [repeatBytes, ← List.map_take, List.take_range]

theorem repeatBytes_hello_mem (m b : Nat) (hb : b ∈ repeatBytes (bytesOf "Hello, World!") m) :
    b ≠ 0 ∧ b < 256 := by
  obtain ⟨i, _, rfl⟩ := List.mem_map.mp hb
  have hlen : (bytesOf "Hello, World!").length = 13 := by rw [hello_bytes]; rfl
  rw [hlen]
  have h := hello_pointwise (i % 13) (Nat.mod_lt _ (by decide))
  exact ⟨h.1, h.2.1⟩

theorem repeatBytes_hello_map (m : Nat) :
    (repeatBytes (bytesOf "Hello, World!") m).map rot13byte
      = repeatBytes (bytesOf "Uryyb, Jbeyq!") m := by
  have hlen : (bytesOf "Hello, World!").length = 13 := by rw [hello_bytes]; rfl
  have ulen : (bytesOf "Uryyb, Jbeyq!").length = 13 := by rw [uryyb_bytes]; rfl
  simp only [repeatBytes, List.map_map, hlen, ulen]
  apply List.map_congr_left
  intro i _
  exact (hello_pointwise (i % 13) (Nat.mod_lt _ (by decide))).2.2

theorem rot13RoundTrip_eq (input : List Nat) (cnt : Nat) (env : Env) (st : State) :
    rot13RoundTrip input cnt env st
      = (writeThenRead (writeThenRead input cnt env st).1 cnt env
          (writeThenRead input cnt env st).2).1 := rfl

theorem hexagramLine_values :
    hexagramLine 6 = bytesOf "___   ___ 6\n" ∧ hexagramLine 7 = bytesOf "_________ 7\n"
      ∧ hexagramLine 8 = bytesOf "___   ___ 8\n" ∧ hexagramLine 9 = bytesOf "_________ 9\n" := by
  refine ⟨?_, ?_, ?_, ?_⟩ <;> rfl

theorem hexagramLine_length (d : Nat) (hd : d < 4) : (hexagramLine (6 + d)).length = 12 := by
  interval_cases d <;> rfl

theorem hexagramLine_newlines (d : Nat) (hd : d < 4) :
    (hexagramLine (6 + d)).count 10 = 1 ∧ (hexagramLine (6 + d)).getLast? = some 10 := by
  interval_cases d <;> exact ⟨by rfl, by rfl⟩

theorem icLoop_step (env : Env) (k i : Nat) (buf : List Nat) (hr : env.rand i < 4)
    (hb : buf.length + 12 ≤ 127) :
    icLoop env (k + 1) i buf = icLoop env k (i + 1) (buf ++ hexagramLine (6 + env.rand i)) := by
  have hfit : ∀ text : List Nat, text.length = 12 → seprint buf 128 text = buf ++ text := by
    intro text ht
    unfold seprint
    rw [List.take_of_length_le]
    omega
  conv_lhs => unfold icLoop
  simp only []
  generalize env.rand i = d at hr ⊢
  interval_cases d
  · rw [if_neg (by decide), hfit _ (by rfl)]; rfl
  · rw [if_pos (by decide), hfit _ (by rfl)]; rfl
  · rw [if_neg (by decide), hfit _ (by rfl)]; rfl
  · rw [if_pos (by decide), hfit _ (by rfl)]; rfl

theorem icbuf_eq (env : Env) (h : ∀ i, i < 6 → env.rand i < 4) :
    icbuf env = hexagramLine (6 + env.rand 0) ++ hexagramLine (6 + env.rand 1)
      ++ hexagramLine (6 + env.rand 2) ++ hexagramLine (6 + env.rand 3)
      ++ hexagramLine (6 + env.rand 4) ++ hexagramLine (6 + env.rand 5) := by
  have l0 := hexagramLine_length _ (h 0 (by decide))
  have l1 := hexagramLine_length _ (h 1 (by decide))
  have l2 := hexagramLine_length _ (h 2 (by decide))
  have l3 := hexagramLine_length _ (h 3 (by decide))
  have l4 := hexagramLine_length _ (h 4 (by decide))
  unfold icbuf
  rw [icLoop_step env 5 0 [] (h 0 (by decide)) (by simp),
    icLoop_step env 4 1 _ (h 1 (by decide)) (by simp [l0]),
    icLoop_step env 3 2 _ (h 2 (by decide)) (by simp [l0, l1]),
    icLoop_step env 2 3 _ (h 3 (by decide)) (by simp [l0, l1, l2]),
    icLoop_step env 1 4 _ (h 4 (by decide)) (by simp [l0, l1, l2, l3]),
    icLoop_step env 0 5 _ (h 5 (by decide)) (by simp [l0, l1, l2, l3, l4])]
  simp [icLoop]

theorem hexagramLine_nonzero (d : Nat) (hd : d < 4) : ∀ b ∈ hexagramLine (6 + d), b ≠ 0 := by
  interval_cases d <;> decide

theorem strlen_of_nonzero (xs : List Nat) (h : ∀ x ∈ xs, x ≠ 0) : strlen xs = xs.length := by
  unfold strlen
  rw [List.takeWhile_eq_self_iff.mpr]
  intro x hx
  simpa using h x hx

theorem readstr_of_nonzero (xs : List Nat) (cnt : Nat) (h : ∀ x ∈ xs, x ≠ 0)
    (hc : xs.length ≤ cnt) : (readstr (mkRead 0 cnt) xs).data = xs := by
  rw [readstr, strlen_of_nonzero xs h]
  simp only [readbuf, mkRead]
  by_cases h0 : 0 ≥ xs.length
  · have : xs = [] := List.length_eq_zero.mp (by omega)
    subst this
    simp
  · rw [if_neg h0]
    simp only [List.drop_zero, Nat.zero_add]
    by_cases hc2 : cnt > xs.length
    · rw [if_pos hc2]; simp
    · rw [if_neg hc2]; exact List.take_of_length_le hc

theorem readbuf_data (r : Req) (s : List Nat) (n : Nat) :
    (readbuf r s n).data = ((s.take n).drop r.offset).take r.count := by
  unfold readbuf
  by_cases h : r.offset ≥ n
  · rw [if_pos h]
    have : (s.take n).drop r.offset = [] := by
      apply List.drop_eq_nil_of_le
      rw [List.length_take]
      omega
    rw [this]; simp
  · rw [if_neg h]
    simp only []
    rw [List.drop_take, List.take_take]
    congr 1
    split_ifs <;> omega

theorem bodyLoop_spec (chunks : List (List Nat)) (h : ∀ c ∈ chunks, 0 < c.length)
    (buf : List Nat) (n : Nat) (hn : n ≤ buf.length) :
    bodyLoop chunks buf n
      = (buf.take n ++ chunks.flatten ++ buf.drop (n + (chunks.map List.length).sum),
          n + (chunks.map List.length).sum) := by
  induction chunks generalizing buf n with
  | nil => simp [bodyLoop]
  | cons c rest ih =>
    have hc : 0 < c.length := h c (List.mem_cons_self _ _)
    have hrest : ∀ d ∈ rest, 0 < d.length := fun d hd => h d (List.mem_cons_of_mem _ hd)
    have hlen : n + c.length ≤ (memmoveAt buf n c).length := by
      simp only [memmoveAt, List.length_append, List.length_take, List.length_drop]
      omega
    have htake : (memmoveAt buf n c).take (n + c.length) = buf.take n ++ c := by
      unfold memmoveAt
      rw [List.take_append_of_le_length (by simp; omega)]
      apply List.take_of_length_le
      simp
    have hdrop : ∀ k, (memmoveAt buf n c).drop (n + c.length + k)
        = buf.drop (n + c.length + k) := by
      intro k
      unfold memmoveAt
      have e : n + c.length + k = (buf.take n ++ c).length + k := by
        simp; omega
      rw [e, List.drop_append]
      rw [List.drop_drop]
      congr 1
    rw [bodyLoop, if_pos hc, ih hrest _ _ hlen, htake, hdrop]
    simp [Nat.add_assoc]

theorem satFresh_of_elapsed (now stamp : Nat) (h1 : stamp ≤ now) (h2 : now < 2 ^ 32)
    (h3 : now - stamp < 20) : satFresh now stamp = true := by
  unfold satFresh
  rw [decide_eq_true_iff]
  have e1 : now % 2 ^ 32 = now := Nat.mod_eq_of_lt h2
  have e2 : stamp % 2 ^ 32 = stamp := Nat.mod_eq_of_lt (by omega)
  rw [e1, e2]
  have e3 : now + 2 ^ 32 - stamp = (now - stamp) + 2 ^ 32 := by omega
  rw [e3, Nat.add_mod_right, Nat.mod_eq_of_lt (by omega)]
  exact h3

theorem rsat_fresh (r : Req) (env : Env) (st : State)
    (hfresh : satFresh (env.time 0) st.satstamp = true) :
    rsat r env st
      = { err := none
          ofcall := readbuf r st.satbuf st.satlen
          st := { st with
            log := st.log ++ [env.ctime (env.time 1) ++ bytesOf " - sat old data\n"] }
          web := [] } := by
  unfold rsat
  rw [hfresh]
  rfl

theorem rsat_fetch (r : Req) (env : Env) (st : State) (cnum : Nat)
    (hstale : satFresh (env.time 0) st.satstamp = false) (hclone : env.cloneAccess = true)
    (hread : env.cloneRead = some cnum) (hctl : env.ctlAccess cnum = true) :
    rsat r env st
      = { err := none
          ofcall := readbuf r (bodyLoop env.body (memsetZero SatBufSize) 0).1
            (bodyLoop env.body (memsetZero SatBufSize) 0).2
          st :=
            { st with
              satbuf := (bodyLoop env.body (memsetZero SatBufSize) 0).1
              satstamp := env.time 1 % 2 ^ 32
              satlen := (bodyLoop env.body (memsetZero SatBufSize) 0).2
              log := st.log ++ [env.ctime (env.time 2) ++ bytesOf " - sat read done with "
                ++ fmtDec (bodyLoop env.body (memsetZero SatBufSize) 0).2 ++ bytesOf "\n"] }
          web := [WebCall.accessClone, WebCall.openClone, WebCall.readClone,
            WebCall.accessCtl cnum, WebCall.openCtl cnum, WebCall.writeCtl cnum,
            WebCall.openBody cnum]
            ++ List.replicate (bodyReads env.body) (WebCall.readBody cnum) } := by
  unfold rsat
  rw [hstale, hclone, hread]
  simp only [hctl]
  rfl

theorem writeThenRead_letters (input : List Nat) (cnt : Nat) (env : Env) (st : State)
    (hl : ∀ b ∈ input, isLetter b) :
    (writeThenRead input cnt env st).1
      = ((input.take (RotBufSize - 1)).map rot13byte).take cnt := by
  simp only [writeThenRead]
  exact read_after_write 0 input cnt env env st
    (fun b hb => ⟨(isLetter_lt b (hl b hb)).2, (isLetter_lt b (hl b hb)).1⟩)

/-! ## Theorems -/

/-- C1 (as amended): for every input of at most `RotBufSize - 1 = 10239`
ASCII letters, writing it to rot13, reading rot13 from offset 0, writing the
bytes just read back and reading from offset 0 again returns exactly the
input, whatever the buffer held before, provided each read asks for at least
as many bytes as were written. -/
theorem rot13RoundTrip_letters (input : List Nat) (cnt : Nat) (env : Env) (st : State)
    (hl : ∀ b ∈ input, isLetter b) (hlen : input.length ≤ RotBufSize - 1)
    (hcnt : input.length ≤ cnt) :
    rot13RoundTrip input cnt env st = input := by
  have h1 : (writeThenRead input cnt env st).1 = input.map rot13byte := by
    rw [writeThenRead_letters input cnt env st hl, List.take_of_length_le hlen,
      List.take_of_length_le (by simpa using hcnt)]
  have hl2 : ∀ b ∈ input.map rot13byte, isLetter b := by
    intro b hb
    obtain ⟨a, ha, rfl⟩ := List.mem_map.mp hb
    exact ((rot13byte_facts a (isLetter_lt a (hl a ha)).1).2.2.2.1 (hl a ha)).1
  rw [rot13RoundTrip_eq]
  have e1 : (input.map rot13byte).take (RotBufSize - 1) = input.map rot13byte :=
    List.take_of_length_le (by simpa using hlen)
  have e2 : ((input.map rot13byte).map rot13byte).take cnt
      = (input.map rot13byte).map rot13byte :=
    List.take_of_length_le (by simpa using hcnt)
  rw [h1, writeThenRead_letters _ cnt env _ hl2, e1, e2, List.map_map]
  calc input.map (rot13byte ∘ rot13byte) = input.map id := by
        apply List.map_congr_left
        intro a ha
        exact ((rot13byte_facts a (isLetter_lt a (hl a ha)).1).2.2.2.1 (hl a ha)).2
    _ = input := List.map_id _

/-- Witness of C1: the round trip of "Az". -/
theorem rot13RoundTrip_letters_witness :
    (∀ b ∈ [65, 122], isLetter b) ∧ [65, 122].length ≤ RotBufSize - 1
      ∧ [65, 122].length ≤ 2
      ∧ rot13RoundTrip [65, 122] 2 quietEnv (initState []) = [65, 122] :=
  ⟨by decide, by decide, by decide,
    rot13RoundTrip_letters [65, 122] 2 quietEnv (initState []) (by decide) (by decide)
      (by decide)⟩

/-- C1 (as stated) fails: an input of 10240 letters `A` comes back from the
round trip without its last byte, because `rwfunc` stores at most
`RotBufSize - 1` bytes. -/
theorem rot13RoundTrip_truncates :
    (∀ b ∈ List.replicate 10240 65, isLetter b)
      ∧ rot13RoundTrip (List.replicate 10240 65) 10240 quietEnv (initState [])
          = List.replicate 10239 65
      ∧ rot13RoundTrip (List.replicate 10240 65) 10240 quietEnv (initState [])
          ≠ List.replicate 10240 65 := by
  have hl : ∀ b ∈ List.replicate 10240 65, isLetter b := by
    intro b hb
    rw [List.eq_of_mem_replicate hb]
    decide
  have hl2 : ∀ b ∈ List.replicate 10239 78, isLetter b := by
    intro b hb
    rw [List.eq_of_mem_replicate hb]
    decide
  have h65 : rot13byte 65 = 78 := by decide
  have h78 : rot13byte 78 = 65 := by decide
  have h1 : (writeThenRead (List.replicate 10240 65) 10240 quietEnv (initState [])).1
      = List.replicate 10239 78 := by
    rw [writeThenRead_letters _ _ _ _ hl, RotBufSize_eq, List.take_replicate,
      List.map_replicate, h65, List.take_replicate]
    congr 1
  have h2 : rot13RoundTrip (List.replicate 10240 65) 10240 quietEnv (initState [])
      = List.replicate 10239 65 := by
    rw [rot13RoundTrip_eq, h1, writeThenRead_letters _ _ _ _ hl2, RotBufSize_eq, List.take_replicate,
      List.map_replicate, h78, List.take_replicate]
    congr 1
  refine ⟨hl, h2, ?_⟩
  rw [h2]
  intro h
  have := congrArg List.length h
  rw [List.length_replicate, List.length_replicate] at this
  omega

/-- C2: the substitution `rwfunc` applies to each stored byte is the
reference Caesar-13 map, for every byte value: an uppercase letter `c`
becomes `'A' + ((c - 'A' + 13) mod 26)`, a lowercase letter `c` becomes
`'a' + ((c - 'a' + 13) mod 26)`, every byte outside `[A-Za-z]` (NUL and the
bytes from 0x80 on included) is left unchanged; and the byte `rwfunc` leaves
at an index below `RotBufSize - 1` is that image of the byte written there. -/
theorem rwfunc_substitution_is_caesar13 (c : Nat) (hc : c < 256) :
    rot13byte c = caesar13Ref c
      ∧ (65 ≤ c ∧ c ≤ 90 → rot13byte c = 65 + (c - 65 + 13) % 26)
      ∧ (97 ≤ c ∧ c ≤ 122 → rot13byte c = 97 + (c - 97 + 13) % 26)
      ∧ (¬ isLetter c → rot13byte c = c)
      ∧ ∀ (pre post : List Nat) (off : Nat) (env : Env) (st : State),
          pre.length < RotBufSize - 1 →
          (rwfunc (mkWrite off (pre ++ c :: post)) env st).st.rotbuf.getD pre.length 0
            = caesar13Ref c := by
  have he := rot13byte_eq_ref c hc
  refine ⟨he, ?_, ?_, (rot13byte_facts c hc).2.2.2.2, ?_⟩
  · intro h
    rw [he]; unfold caesar13Ref; rw [if_pos h]
  · intro h
    have hn : ¬ (65 ≤ c ∧ c ≤ 90) := by omega
    rw [he]; unfold caesar13Ref; rw [if_neg hn, if_pos h]
  · intro pre post off env st hpre
    rw [rwfunc_rotbuf, ← he]
    obtain ⟨j, hj⟩ : ∃ j, RotBufSize - 1 - pre.length = j + 1 :=
      ⟨RotBufSize - 1 - pre.length - 1, by omega⟩
    rw [List.take_append_eq_append_take, List.take_of_length_le (Nat.le_of_lt hpre), hj,
      List.take_succ_cons, List.map_append, List.map_cons, List.append_assoc,
      List.getD_eq_getElem?_getD,
      List.getElem?_append_right (by simp)]
    simp

/-- Witness of C2 at the byte `'A'`. -/
theorem rwfunc_substitution_is_caesar13_witness :
    65 < 256 ∧ rot13byte 65 = caesar13Ref 65 ∧ caesar13Ref 65 = 78 :=
  ⟨by decide, (rwfunc_substitution_is_caesar13 65 (by decide)).1, by decide⟩

/-- C3: whatever the rot13 buffer held before, a write of `n` NUL-free bytes
reports the accepted count `n` (also when `n > RotBufSize - 1 = 10239`), and a
read from offset 0 that follows it returns the rot13 image of the first
`min n 10239` bytes written, cut at the count the read asks for and thus
exactly that image when the read asks for at least `min n 10239` bytes, and
nothing of the earlier content; in particular `m` bytes of "Hello, World!"
repeated come back as "Uryyb, Jbeyq!" repeated, cut at 10239 bytes. -/
theorem rwfunc_then_read (st : State) (env1 env2 : Env) (off : Nat) (data : List Nat)
    (hnul : ∀ b ∈ data, b ≠ 0 ∧ b < 256) :
    (rwfunc (mkWrite off data) env1 st).ofcall.count = data.length
      ∧ (rwfunc (mkWrite off data) env1 st).err = none
      ∧ RotBufSize - 1 = 10239
      ∧ (∀ cnt,
          (rrfunc (mkRead 0 cnt) env2 (rwfunc (mkWrite off data) env1 st).st).err = none
          ∧ (rrfunc (mkRead 0 cnt) env2 (rwfunc (mkWrite off data) env1 st).st).ofcall.data
              = ((data.take (min data.length (RotBufSize - 1))).map rot13byte).take cnt
          ∧ (min data.length (RotBufSize - 1) ≤ cnt →
              (rrfunc (mkRead 0 cnt) env2 (rwfunc (mkWrite off data) env1 st).st).ofcall.data
                = (data.take (min data.length (RotBufSize - 1))).map rot13byte))
      ∧ ∀ m cnt, min m (RotBufSize - 1) ≤ cnt →
          (rwfunc (mkWrite off (repeatBytes (bytesOf "Hello, World!") m)) env1 st).ofcall.count
              = m
          ∧ (rrfunc (mkRead 0 cnt) env2
              (rwfunc (mkWrite off (repeatBytes (bytesOf "Hello, World!") m)) env1 st).st
              ).ofcall.data
            = repeatBytes (bytesOf "Uryyb, Jbeyq!") (min m (RotBufSize - 1)) := by
  have e : data.take (min data.length (RotBufSize - 1)) = data.take (RotBufSize - 1) := by
    rcases Nat.le_total data.length (RotBufSize - 1) with h | h
    · rw [Nat.min_eq_left h, List.take_of_length_le h, List.take_of_length_le (Nat.le_refl _)]
    · rw [Nat.min_eq_right h]
  refine ⟨rfl, rfl, rfl, ?_, ?_⟩
  · intro cnt
    have hread := read_after_write off data cnt env1 env2 st hnul
    refine ⟨rfl, ?_, ?_⟩
    · rw [hread, e]
    · intro hcnt
      rw [hread, e]
      apply List.take_of_length_le
      rw [List.length_map, List.length_take, Nat.min_comm]
      exact hcnt
  · intro m cnt hm
    refine ⟨by simp [rwfunc, mkWrite, repeatBytes], ?_⟩
    rw [read_after_write off _ cnt env1 env2 st (repeatBytes_hello_mem m),
      repeatBytes_take, repeatBytes_hello_map, repeatBytes_take]
    congr 1
    omega

/-- Witness of C3: writing "Hi!" and reading 10 bytes back gives "Uv!". -/
theorem rwfunc_then_read_witness :
    (∀ b ∈ [72, 105, 33], b ≠ 0 ∧ b < 256)
      ∧ (rwfunc (mkWrite 0 [72, 105, 33]) quietEnv (initState [])).ofcall.count = 3
      ∧ (rrfunc (mkRead 0 10) quietEnv
          (rwfunc (mkWrite 0 [72, 105, 33]) quietEnv (initState [])).st).ofcall.data
          = [85, 118, 33] :=
  ⟨by decide,
    (rwfunc_then_read (initState []) quietEnv quietEnv 0 [72, 105, 33] (by decide)).1,
    (((rwfunc_then_read (initState []) quietEnv quietEnv 0 [72, 105, 33]
      (by decide)).2.2.2.1 10).2.2 (by decide)).trans (by decide)⟩

/-- C5: for every six draws, each in {0,1,2,3}, `icfunc` renders into its
128-byte scratch buffer, without truncation, exactly six newline-terminated
lines in draw order; line `i` is the glyph, a blank and `v = 6 + r_i`, which
is one of 6, 7, 8, 9; the glyph is "_________" exactly when `v` is odd and
"___   ___" exactly when `v` is even.  A read from offset 0 asking for at
least 72 bytes returns that text. -/
theorem icfunc_renders_six_lines (env : Env) (h : ∀ i, i < 6 → env.rand i < 4) :
    icbuf env = hexagramLine (6 + env.rand 0) ++ hexagramLine (6 + env.rand 1)
        ++ hexagramLine (6 + env.rand 2) ++ hexagramLine (6 + env.rand 3)
        ++ hexagramLine (6 + env.rand 4) ++ hexagramLine (6 + env.rand 5)
      ∧ (icbuf env).length = 72 ∧ (icbuf env).length ≤ 128 - 1
      ∧ (icbuf env).count 10 = 6
      ∧ (∀ i, i < 6 →
          (6 + env.rand i = 6 ∨ 6 + env.rand i = 7 ∨ 6 + env.rand i = 8 ∨ 6 + env.rand i = 9)
          ∧ (hexagramLine (6 + env.rand i)).getLast? = some 10
          ∧ (hexagramLine (6 + env.rand i)).count 10 = 1
          ∧ ((6 + env.rand i) % 2 = 1 → hexagramLine (6 + env.rand i)
              = bytesOf "_________" ++ bytesOf " " ++ [48 + (6 + env.rand i)] ++ bytesOf "\n")
          ∧ ((6 + env.rand i) % 2 = 0 → hexagramLine (6 + env.rand i)
              = bytesOf "___   ___" ++ bytesOf " " ++ [48 + (6 + env.rand i)] ++ bytesOf "\n"))
      ∧ (hexagramLine 6 = bytesOf "___   ___ 6\n" ∧ hexagramLine 7 = bytesOf "_________ 7\n"
          ∧ hexagramLine 8 = bytesOf "___   ___ 8\n" ∧ hexagramLine 9 = bytesOf "_________ 9\n")
      ∧ ∀ (r : Req) (st : State),
          (icfunc r env st).err = none ∧ (icfunc r env st).st = st
          ∧ (icfunc r env st).ofcall = readstr r (icbuf env)
          ∧ ∀ cnt, 72 ≤ cnt → (icfunc (mkRead 0 cnt) env st).ofcall.data = icbuf env := by
  have heq := icbuf_eq env h
  have l0 := hexagramLine_length _ (h 0 (by decide))
  have l1 := hexagramLine_length _ (h 1 (by decide))
  have l2 := hexagramLine_length _ (h 2 (by decide))
  have l3 := hexagramLine_length _ (h 3 (by decide))
  have l4 := hexagramLine_length _ (h 4 (by decide))
  have l5 := hexagramLine_length _ (h 5 (by decide))
  have hlen : (icbuf env).length = 72 := by
    rw [heq]; simp only [List.length_append, l0, l1, l2, l3, l4, l5]
  have hnz : ∀ b ∈ icbuf env, b ≠ 0 := by
    rw [heq]
    intro b hb
    simp only [List.mem_append] at hb
    rcases hb with ((((hb | hb) | hb) | hb) | hb) | hb
    · exact hexagramLine_nonzero _ (h 0 (by decide)) b hb
    · exact hexagramLine_nonzero _ (h 1 (by decide)) b hb
    · exact hexagramLine_nonzero _ (h 2 (by decide)) b hb
    · exact hexagramLine_nonzero _ (h 3 (by decide)) b hb
    · exact hexagramLine_nonzero _ (h 4 (by decide)) b hb
    · exact hexagramLine_nonzero _ (h 5 (by decide)) b hb
  refine ⟨heq, hlen, by omega, ?_, ?_, hexagramLine_values, ?_⟩
  · rw [heq]
    simp only [List.count_append, (hexagramLine_newlines _ (h 0 (by decide))).1,
      (hexagramLine_newlines _ (h 1 (by decide))).1,
      (hexagramLine_newlines _ (h 2 (by decide))).1,
      (hexagramLine_newlines _ (h 3 (by decide))).1,
      (hexagramLine_newlines _ (h 4 (by decide))).1,
      (hexagramLine_newlines _ (h 5 (by decide))).1]
  · intro i hi
    have hr := h i hi
    refine ⟨by omega, (hexagramLine_newlines _ hr).2, (hexagramLine_newlines _ hr).1, ?_, ?_⟩
    · generalize env.rand i = d at hr ⊢
      interval_cases d <;> first | (intro _; rfl) | (intro hp; exact absurd hp (by decide))
    · generalize env.rand i = d at hr ⊢
      interval_cases d <;> first | (intro _; rfl) | (intro hp; exact absurd hp (by decide))
  · intro r st
    refine ⟨rfl, rfl, rfl, ?_⟩
    intro cnt hcnt
    exact readstr_of_nonzero (icbuf env) cnt hnz (by omega)

/-- Witness of C5: the draws 0, 1, 2, 3, 0, 1. -/
theorem icfunc_renders_six_lines_witness :
    (∀ i, i < 6 → drawEnv.rand i < 4)
      ∧ icbuf drawEnv
        = bytesOf "___   ___ 6\n_________ 7\n___   ___ 8\n_________ 9\n___   ___ 6\n_________ 7\n" :=
  ⟨fun i _ => Nat.mod_lt i (by decide),
    (icfunc_renders_six_lines drawEnv (fun i _ => Nat.mod_lt i (by decide))).1.trans rfl⟩

/-- C6: for every write of `n` bytes to honeypot, whatever their content,
`whpot` sets the accepted count to `n`, returns the error string
"Authorities Have Been Notified", appends exactly one entry
"<timestamp> - <caller identity> - write the honeypot" to the audit log and
stores nothing of what was written: rot13 buffer and sat cache are unchanged.
For the payload "test" the accepted count is 4. -/
theorem whpot_accepts_and_reports (off : Nat) (data : List Nat) (env : Env) (st : State) :
    (whpot (mkWrite off data) env st).ofcall.count = data.length
      ∧ (whpot (mkWrite off data) env st).err = some "Authorities Have Been Notified"
      ∧ (whpot (mkWrite off data) env st).st.log
          = st.log ++ [env.ctime (env.time 0) ++ bytesOf " - " ++ env.user
              ++ bytesOf " - write the honeypot\n"]
      ∧ (whpot (mkWrite off data) env st).st.log.length = st.log.length + 1
      ∧ (whpot (mkWrite off data) env st).st.rotbuf = st.rotbuf
      ∧ (whpot (mkWrite off data) env st).st.satbuf = st.satbuf
      ∧ (whpot (mkWrite off data) env st).st.satlen = st.satlen
      ∧ (whpot (mkWrite off data) env st).st.satstamp = st.satstamp
      ∧ (whpot (mkWrite off data) env st).web = []
      ∧ (whpot (mkWrite off (bytesOf "test")) env st).ofcall.count = 4
      ∧ fswrite honeypotFile (mkWrite off data) env st
          = Outcome.responded (Response.rerror "Authorities Have Been Notified")
              (whpot (mkWrite off data) env st).st [] := by
  refine ⟨rfl, rfl, rfl, ?_, rfl, rfl, rfl, rfl, rfl, rfl, rfl⟩
  simp [whpot]

/-- C7: when sat.jpg is read while the cache is stale and `/mnt/web/clone`
is absent, `rsat` returns the error "run webfs first" and the whole state,
in particular `satbuf`, `satlen` and `satstamp`, is what it was before. -/
theorem rsat_without_webfs (r : Req) (env : Env) (st : State)
    (hstale : satFresh (env.time 0) st.satstamp = false) (hweb : env.cloneAccess = false) :
    (rsat r env st).err = some "run webfs first"
      ∧ (rsat r env st).st = st
      ∧ (rsat r env st).st.satbuf = st.satbuf
      ∧ (rsat r env st).st.satlen = st.satlen
      ∧ (rsat r env st).st.satstamp = st.satstamp
      ∧ fsread satFile r env st
          = Outcome.responded (Response.rerror "run webfs first") st [WebCall.accessClone] := by
  have hr : rsat r env st
      = { err := some "run webfs first", ofcall := ⟨0, []⟩, st := st,
          web := [WebCall.accessClone] } := by
    unfold rsat
    rw [hstale, hweb]
    rfl
  refine ⟨?_, ?_, ?_, ?_, ?_, ?_⟩
  · rw [hr]
  · rw [hr]
  · rw [hr]
  · rw [hr]
  · rw [hr]
  · simp only [fsread, satFile, Handler.run, hr, respond]

/-- Witness of C7: the first read after start, at time 1000, without webfs. -/
theorem rsat_without_webfs_witness :
    satFresh (quietEnv.time 0) (initState []).satstamp = false
      ∧ quietEnv.cloneAccess = false
      ∧ (rsat (mkRead 0 8192) quietEnv (initState [])).err = some "run webfs first"
      ∧ (rsat (mkRead 0 8192) quietEnv (initState [])).st = initState [] :=
  ⟨by decide, rfl,
    (rsat_without_webfs (mkRead 0 8192) quietEnv (initState []) (by decide) rfl).1,
    (rsat_without_webfs (mkRead 0 8192) quietEnv (initState []) (by decide) rfl).2.1⟩

/-- C10: in every cache state and at every clock value for which the test
`time(0) - satstamp < 20` of `rsat` holds, a read of sat.jpg returns the
first `satlen` bytes of `satbuf`, windowed by the offset and count of the
request, with a nil error, performs no webfs operation, and leaves `satbuf`,
`satlen` and `satstamp` as they were; a second such read with the same offset
and count returns the same reply. -/
theorem rsat_fresh_serves_cache (r : Req) (env : Env) (st : State)
    (hfresh : satFresh (env.time 0) st.satstamp = true) :
    (rsat r env st).err = none
      ∧ (rsat r env st).ofcall = readbuf r st.satbuf st.satlen
      ∧ (rsat r env st).ofcall.data
          = ((st.satbuf.take st.satlen).drop r.offset).take r.count
      ∧ (r.offset = 0 → st.satlen ≤ r.count →
          (rsat r env st).ofcall.data = st.satbuf.take st.satlen)
      ∧ (rsat r env st).web = []
      ∧ (rsat r env st).st.satbuf = st.satbuf
      ∧ (rsat r env st).st.satlen = st.satlen
      ∧ (rsat r env st).st.satstamp = st.satstamp
      ∧ (rsat r env st).st.log
          = st.log ++ [env.ctime (env.time 1) ++ bytesOf " - sat old data\n"]
      ∧ ∀ env2 : Env, satFresh (env2.time 0) st.satstamp = true →
          (rsat r env2 (rsat r env st).st).err = none
          ∧ (rsat r env2 (rsat r env st).st).ofcall = (rsat r env st).ofcall
          ∧ (rsat r env2 (rsat r env st).st).web = [] := by
  have hr := rsat_fresh r env st hfresh
  refine ⟨by rw [hr], by rw [hr], ?_, ?_, by rw [hr], by rw [hr], by rw [hr], by rw [hr],
    by rw [hr], ?_⟩
  · rw [hr]; exact readbuf_data r st.satbuf st.satlen
  · intro ho hc
    rw [hr]
    simp only []
    rw [readbuf_data, ho, List.drop_zero]
    apply List.take_of_length_le
    rw [List.length_take]
    omega
  · intro env2 h2
    have hst : (rsat r env st).st.satstamp = st.satstamp := by rw [hr]
    have hr2 := rsat_fresh r env2 (rsat r env st).st (by rw [hst]; exact h2)
    rw [hr2]
    refine ⟨rfl, ?_, rfl⟩
    rw [hr]

/-- Witness of C10: a read at time 1000 right after a fetch at time 1000. -/
theorem rsat_fresh_serves_cache_witness :
    satFresh (smallBodyEnv.time 0) (rsat (mkRead 0 8192) smallBodyEnv (initState [])).st.satstamp
        = true
      ∧ (rsat (mkRead 0 8192) smallBodyEnv
          (rsat (mkRead 0 8192) smallBodyEnv (initState [])).st).err = none
      ∧ (rsat (mkRead 0 8192) smallBodyEnv
          (rsat (mkRead 0 8192) smallBodyEnv (initState [])).st).web = [] :=
  ⟨by decide,
    (rsat_fresh_serves_cache (mkRead 0 8192) smallBodyEnv
      (rsat (mkRead 0 8192) smallBodyEnv (initState [])).st (by decide)).1,
    (rsat_fresh_serves_cache (mkRead 0 8192) smallBodyEnv
      (rsat (mkRead 0 8192) smallBodyEnv (initState [])).st (by decide)).2.2.2.2.1⟩

/-- C8 at a failing fetch: the first read after start, at time 1000, with
webfs handing out a session whose ctl write fails and whose body cannot be
read.  `rsat` returns nil, not an error, and `satstamp` moves from 0 to
1000 with an empty payload. -/
theorem rsat_failed_fetch_reports_success :
    satFresh (failingFetchEnv.time 0) (initState []).satstamp = false
      ∧ failingFetchEnv.ctlWrite = -1 ∧ failingFetchEnv.body = []
      ∧ failingFetchEnv.bodyLast = -1
      ∧ (rsat (mkRead 0 8192) failingFetchEnv (initState [])).err = none
      ∧ (initState []).satstamp = 0
      ∧ (rsat (mkRead 0 8192) failingFetchEnv (initState [])).st.satstamp = 1000
      ∧ (rsat (mkRead 0 8192) failingFetchEnv (initState [])).st.satlen = 0 := by
  have hr := rsat_fetch (mkRead 0 8192) failingFetchEnv (initState []) 0 (by decide) rfl rfl rfl
  refine ⟨by decide, rfl, rfl, rfl, by rw [hr], rfl, ?_, ?_⟩
  · rw [hr]; rfl
  · rw [hr]; rfl

/-- C9 at an overlong body: the first read after start, with webfs
delivering `300 * 1024 + 1` bytes in reads of at most 1024 bytes.  `rsat`
sets `satlen` to 307201, above `SatBufSize = 307200`, and the last byte lands
at index 307200, behind the end of `satbuf`. -/
theorem rsat_overruns_satbuf :
    (∀ c ∈ bigBodyEnv.body, 0 < c.length ∧ c.length ≤ 1024)
      ∧ (rsat (mkRead 0 8192) bigBodyEnv (initState [])).err = none
      ∧ (rsat (mkRead 0 8192) bigBodyEnv (initState [])).st.satlen = 307201
      ∧ SatBufSize < (rsat (mkRead 0 8192) bigBodyEnv (initState [])).st.satlen
      ∧ (rsat (mkRead 0 8192) bigBodyEnv (initState [])).st.satbuf.length = 307201
      ∧ (rsat (mkRead 0 8192) bigBodyEnv (initState [])).st.satbuf.getD SatBufSize 0 = 255 := by
  have hr := rsat_fetch (mkRead 0 8192) bigBodyEnv (initState []) 0 (by decide) rfl rfl rfl
  have hbody : bigBodyEnv.body = List.replicate 300 (List.replicate 1024 255) ++ [[255]] := rfl
  have hchunk : ∀ c ∈ bigBodyEnv.body, 0 < c.length ∧ c.length ≤ 1024 := by
    intro c hc
    rw [hbody, List.mem_append] at hc
    rcases hc with hc | hc
    · rw [List.eq_of_mem_replicate hc, List.length_replicate]
      omega
    · rw [List.mem_singleton] at hc
      rw [hc]
      exact ⟨by decide, by decide⟩
  have hsum : (bigBodyEnv.body.map List.length).sum = 307201 := by
    rw [hbody, List.map_append, List.map_replicate, List.length_replicate, List.sum_append,
      List.sum_replicate]
    rfl
  have hflat : bigBodyEnv.body.flatten
      = (List.replicate 300 (List.replicate 1024 255)).flatten ++ [255] := by
    rw [hbody, List.flatten_append]
    rfl
  have hflatlen : (List.replicate 300 (List.replicate 1024 255)).flatten.length = 307200 := by
    rw [List.length_flatten, List.map_replicate, List.length_replicate, List.sum_replicate]
    rfl
  have hloop := bodyLoop_spec bigBodyEnv.body (fun c hc => (hchunk c hc).1)
    (memsetZero SatBufSize) 0 (Nat.zero_le _)
  have hdrop : (memsetZero SatBufSize).drop (0 + (bigBodyEnv.body.map List.length).sum) = [] := by
    apply List.drop_eq_nil_of_le
    rw [hsum, memsetZero, List.length_replicate, SatBufSize_eq]
    omega
  rw [hdrop, List.take_zero, List.nil_append, List.append_nil, hsum, hflat] at hloop
  have hlen : (rsat (mkRead 0 8192) bigBodyEnv (initState [])).st.satlen = 307201 := by
    rw [hr]
    simp only []
    rw [hloop]
  have hbuf : (rsat (mkRead 0 8192) bigBodyEnv (initState [])).st.satbuf
      = (List.replicate 300 (List.replicate 1024 255)).flatten ++ [255] := by
    rw [hr]
    simp only []
    rw [hloop]
  refine ⟨hchunk, by rw [hr], hlen, ?_, ?_, ?_⟩
  · rw [hlen, SatBufSize_eq]
    omega
  · rw [hbuf, List.length_append, hflatlen]
    rfl
  · rw [hbuf, SatBufSize_eq, List.getD_eq_getElem?_getD,
      List.getElem?_append_right (by rw [hflatlen]), hflatlen]
    rfl

end Fakefs
